import Mathlib

/-!
Formal model of the voice-to-text widget: the client session logic
(the React component in `src/unnamed/part_000`) and the transcription API
route (`src/app/api/transcribe/route.ts`), embedded shallowly.  Machine-level
concerns (media capture, DOM, network) appear only through the discrete
events they deliver to the single-threaded client.
-/

namespace VoiceToText

/-- A byte blob with a declared mime type (JS `Blob`; `type` is its `type`
property). -/
structure Blob where
  data : List Nat
  type : String
deriving DecidableEq

/-- The `AudioRecording` record of the client component. -/
structure Recording where
  id : String
  url : String
  blob : Blob
  timestamp : Nat
  transcription : Option String
deriving DecidableEq

/-- `URL.createObjectURL`, modeled as an opaque handle computed from the
blob. -/
def createObjectURL (b : Blob) : String :=
  "blob:" ++ toString b.data.length

/-- The new `AudioRecording` built in the recorder's `onstop` handler:
`id` is `Date.now().toString()` and `timestamp` is the same clock reading
(`new Date()` taken at the same instant). -/
def mkRecording (now : Nat) (audioBlob : Blob) : Recording :=
  { id := toString now
    url := createObjectURL audioBlob
    blob := audioBlob
    timestamp := now
    transcription := none }

/-- The component's `useState` state together with the DOM-side facts the
claims are about: which recording ids have a mounted audio element
(`audioRefs`, the keys of the `audioRefs` ref map) and which audio elements
are currently playing (`playingElems`).  `draft` is the textarea's value. -/
structure SessionState where
  isRecording : Bool
  hasPermission : Option Bool
  recordings : List Recording
  isProcessing : Bool
  playingId : Option String
  isTranscribing : Bool
  transcriptionError : Option String
  draft : String
  audioRefs : List String
  playingElems : List String
deriving DecidableEq

/-- The initial `useState` values of the component. -/
def initialState : SessionState :=
  { isRecording := false
    hasPermission := none
    recordings := []
    isProcessing := false
    playingId := none
    isTranscribing := false
    transcriptionError := none
    draft := ""
    audioRefs := []
    playingElems := [] }

/-- What `fetch("/api/transcribe")` resolved to, as seen by the client:
either `response.ok` held and `response.json()` yielded an object whose
`text` field is `text` (`none` when absent), or `response.ok` was false
with the given status and `response.text()` body, or the fetch / parsing
itself threw with the given message. -/
inductive FetchOutcome where
  | ok (text : Option String)
  | httpError (status : Nat) (body : String)
  | thrown (message : String)
deriving DecidableEq

/-- JS truthiness of `result.text`: present and a non-empty string. -/
def textTruthy : Option String → Bool
  | some t => t ≠ ""
  | none => false

/-- The error message `transcribeAudio` ends up storing for a given fetch
outcome (`none` when the call succeeds): `!response.ok` throws
`API request failed: <status> - <body>`, a falsy `result.text` throws
`No transcription text received`, and a thrown error is stored verbatim. -/
def failureMessage : FetchOutcome → Option String
  | .ok t => if textTruthy t then none else some "No transcription text received"
  | .httpError status body =>
      some ("API request failed: " ++ toString status ++ " - " ++ body)
  | .thrown message => some message

/-- Whether a fetch outcome takes `transcribeAudio` down its catch path. -/
def outcomeFails (o : FetchOutcome) : Bool :=
  (failureMessage o).isSome

/-- State effect of one settled `transcribeAudio(blob, mimeType, recordingId)`
call, given what the fetch resolved to.  It sets `isTranscribing`, clears the
error, then on a truthy `result.text` updates the matching recording and
appends to the textarea (present throughout the component's lifetime), on
any failure stores the error message, and finally clears `isTranscribing`. -/
def transcribeAudio (s : SessionState) (recordingId : String)
    (outcome : FetchOutcome) : SessionState :=
  let s1 := { s with isTranscribing := true, transcriptionError := none }
  let s2 :=
    match outcome with
    | .ok (some t) =>
        if t ≠ "" then
          { s1 with
            recordings := s1.recordings.map (fun r : Recording =>
              if r.id = recordingId then { r with transcription := some t } else r),
            draft := if s1.draft = "" then t else s1.draft ++ " " ++ t }
        else
          { s1 with transcriptionError := some "No transcription text received" }
    | .ok none =>
        { s1 with transcriptionError := some "No transcription text received" }
    | .httpError status body =>
        { s1 with
          transcriptionError :=
            some ("API request failed: " ++ toString status ++ " - " ++ body) }
    | .thrown message =>
        { s1 with transcriptionError := some message }
  { s2 with isTranscribing := false }

/-- The arguments of one `transcribeAudio` invocation. -/
structure TranscribeArgs where
  blob : Blob
  mimeType : String
  recordingId : String
deriving DecidableEq

/-- `retryTranscription`: the arguments it passes to `transcribeAudio`,
`recording.blob.type || "audio/webm"` being the JS falsy-default. -/
def retryTranscription (recording : Recording) : TranscribeArgs :=
  { blob := recording.blob
    mimeType := if recording.blob.type = "" then "audio/webm" else recording.blob.type
    recordingId := recording.id }

/-- The retry button handler: `recordings[recordings.length - 1]`, guarded by
`if (lastRecording)`; yields the `transcribeAudio` arguments used, if any. -/
def retryHandler (s : SessionState) : Option TranscribeArgs :=
  match s.recordings.getLast? with
  | some lastRecording => some (retryTranscription lastRecording)
  | none => none

/-- `togglePlayback(recordingId)`.  A missing audio element is an early
return; pausing the current recording clears the marker; otherwise any
currently playing audio is paused and the requested element starts
playing. -/
def togglePlayback (s : SessionState) (recordingId : String) : SessionState :=
  if recordingId ∈ s.audioRefs then
    if s.playingId = some recordingId then
      { s with playingElems := s.playingElems.erase recordingId, playingId := none }
    else
      let s1 :=
        match s.playingId with
        | some currentId =>
            if currentId ∈ s.audioRefs then
              { s with playingElems := s.playingElems.erase currentId }
            else s
        | none => s
      { s1 with
        playingElems :=
          if recordingId ∈ s1.playingElems then s1.playingElems
          else recordingId :: s1.playingElems,
        playingId := some recordingId }
  else s

/-- Natural end of audio for the element of `recordingId`: the element
leaves the playing state and the `onEnded` handler sets the marker to
null. -/
def audioEnded (s : SessionState) (recordingId : String) : SessionState :=
  { s with playingElems := s.playingElems.erase recordingId, playingId := none }

/-- The audio element `ref` callback on mount: registers the element (a
freshly mounted element is not playing). -/
def registerAudioRef (s : SessionState) (recordingId : String) : SessionState :=
  { s with audioRefs :=
      if recordingId ∈ s.audioRefs then s.audioRefs
      else recordingId :: s.audioRefs }

/-- `startRecording`: clears the previous error, then either permission is
granted (capture starts) or `getUserMedia` rejects. -/
def startRecordingStep (s : SessionState) (granted : Bool) : SessionState :=
  if granted then
    { s with transcriptionError := none, hasPermission := some true, isRecording := true }
  else
    { s with transcriptionError := none, hasPermission := some false }

/-- The recorder mime type chosen in `startRecording`, depending on
`MediaRecorder.isTypeSupported("audio/webm;codecs=opus")`. -/
def recorderMimeType (opusSupported : Bool) : String :=
  if opusSupported then "audio/webm;codecs=opus" else "audio/webm"

/-- `stopRecording` plus the recorder's `onstop` handler followed by the
settled `transcribeAudio` call it starts: assembles the buffered chunks into
one blob, appends a new `Recording`, and transcribes it. -/
def finishRecordingStep (s : SessionState) (now : Nat) (chunks : List (List Nat))
    (mimeType : String) (outcome : FetchOutcome) : SessionState :=
  let audioBlob : Blob := { data := chunks.flatten, type := mimeType }
  let newRecording := mkRecording now audioBlob
  let s1 := { s with
    isRecording := false,
    isProcessing := false,
    recordings := s.recordings ++ [newRecording] }
  transcribeAudio s1 newRecording.id outcome

/-- The discrete events driving the single-threaded client (spec section 5:
user actions and device/network callbacks are the only suspension points).
A `finish` event carries the clock reading at finalization, the buffered
chunks, whether the opus mime type was supported, and what the transcription
fetch for the new recording settled to; `retry` carries the fetch outcome of
the retried call.  An `ended` event is delivered by the environment only for
an element that is actually playing. -/
inductive Event where
  | start (granted : Bool)
  | finish (now : Nat) (chunks : List (List Nat)) (opusSupported : Bool)
      (outcome : FetchOutcome)
  | retry (outcome : FetchOutcome)
  | toggle (recordingId : String)
  | ended (recordingId : String)
  | register (recordingId : String)
deriving DecidableEq

/-- Session state together with one piece of history bookkeeping used to
state claims: the id targeted by the most recently failed transcription
call (`none` while no call has failed). -/
structure TraceState where
  sess : SessionState
  lastFailed : Option String
deriving DecidableEq

/-- One step of the event-driven client. -/
def step (g : TraceState) (e : Event) : TraceState :=
  match e with
  | .start granted => { g with sess := startRecordingStep g.sess granted }
  | .finish now chunks opusSupported outcome =>
      let mimeType := recorderMimeType opusSupported
      let rid := (mkRecording now { data := chunks.flatten, type := mimeType }).id
      { sess := finishRecordingStep g.sess now chunks mimeType outcome
        lastFailed := if outcomeFails outcome then some rid else g.lastFailed }
  | .retry outcome =>
      match g.sess.recordings.getLast? with
      | some lastRecording =>
          { sess := transcribeAudio g.sess lastRecording.id outcome
            lastFailed :=
              if outcomeFails outcome then some lastRecording.id else g.lastFailed }
      | none => g
  | .toggle recordingId => { g with sess := togglePlayback g.sess recordingId }
  | .ended recordingId =>
      if recordingId ∈ g.sess.playingElems then
        { g with sess := audioEnded g.sess recordingId }
      else g
  | .register recordingId => { g with sess := registerAudioRef g.sess recordingId }

/-- The trace state produced by a list of events from the initial state. -/
def run (events : List Event) : TraceState :=
  events.foldl step { sess := initialState, lastFailed := none }

/-- The clock readings of the `finish` events of a trace, in order. -/
def finishTimes : List Event → List Nat
  | [] => []
  | .finish now _ _ _ :: es => now :: finishTimes es
  | _ :: es => finishTimes es

/-! ## The transcription API route (`src/app/api/transcribe/route.ts`) -/

/-- The uploaded `File` (name, declared content type, bytes); its `size` is
its byte length. -/
structure UploadedFile where
  name : String
  type : String
  data : List Nat
deriving DecidableEq

/-- `File.size` (equal to the length of the `Uint8Array` the route builds). -/
def fileSize (f : UploadedFile) : Nat := f.data.length

/-- The parsed form data of a request: the `audio` field, if present. -/
structure TranscribeRequest where
  audio : Option UploadedFile
deriving DecidableEq

/-- What the external transcription model (`experimental_transcribe` with
`whisper-1`) does on a given byte payload: resolves with text or rejects
with an error message. -/
inductive ModelOutcome where
  | ok (text : String)
  | err (message : String)
deriving DecidableEq

/-- The observable result of the route handler: HTTP status, the `text` and
`error` fields of the JSON body, the `success` flag, and whether the
external model was invoked for this request. -/
structure GatewayResult where
  status : Nat
  text : Option String
  error : Option String
  success : Bool
  modelInvoked : Bool
deriving DecidableEq

/-- The `POST` handler of `src/app/api/transcribe/route.ts`, parameterized
by the external model's behavior. -/
def POST (req : TranscribeRequest) (model : List Nat → ModelOutcome) :
    GatewayResult :=
  match req.audio with
  | none =>
      { status := 400, text := none, error := some "No audio file provided"
        success := false, modelInvoked := false }
  | some audioFile =>
      if fileSize audioFile > 25 * 1024 * 1024 then
        { status := 400, text := none, error := some "File size exceeds 25MB limit"
          success := false, modelInvoked := false }
      else
        match model audioFile.data with
        | .ok text =>
            { status := 200, text := some text, error := none
              success := true, modelInvoked := true }
        | .err message =>
            { status := 500, text := none
              error := some ("Transcription failed: " ++ message)
              success := false, modelInvoked := true }

/-! ## Derived state predicates and concrete sample inputs -/

/-- Playback exclusivity: no element is playing, or exactly the one marked
by `playingId` is, and it has a registered element. -/
def PlayInv (s : SessionState) : Prop :=
  s.playingElems = [] ∨
    ∃ i, s.playingElems = [i] ∧ s.playingId = some i ∧ i ∈ s.audioRefs

/-- Invariant of reachable trace states: playback exclusivity; every
recording's id is the decimal rendering of its creation time and its blob
carries a non-empty recorder mime type; and whenever the error banner is
up, the most recently failed transcription targeted the recording at the
tail of the list. -/
def Inv (g : TraceState) : Prop :=
  PlayInv g.sess ∧
  (∀ r ∈ g.sess.recordings, r.id = toString r.timestamp ∧ r.blob.type ≠ "") ∧
  (g.sess.transcriptionError ≠ none →
    ∃ r, g.sess.recordings.getLast? = some r ∧ g.lastFailed = some r.id)

/-- A one-byte upload. -/
def smallFile : UploadedFile :=
  { name := "recording.webm", type := "audio/webm", data := [0] }

/-- An upload one byte over the 25 MiB ceiling. -/
def bigFile : UploadedFile :=
  { name := "recording.webm", type := "audio/webm"
    data := List.replicate (25 * 1024 * 1024 + 1) 0 }

/-- Sample trace: two audio elements mounted, playback started on the
first. -/
def demoEvents : List Event :=
  [.register "a", .register "b", .toggle "a"]

/-- Sample trace: two recordings, the first transcribed, the second's
transcription failed. -/
def demoTrace : List Event :=
  [.finish 1 [[0]] true (.ok (some "hi")), .finish 2 [[1]] false (.thrown "boom")]

/-- Sample session with two untranscribed recordings. -/
def frameS : SessionState :=
  { initialState with
    recordings := [mkRecording 1 { data := [0], type := "audio/webm" },
      mkRecording 2 { data := [1], type := "audio/webm" }] }

/-! ## Auxiliary facts: decimal rendering of naturals is injective -/

lemma digitChar_injOn :
    ∀ a : Nat, a < 10 → ∀ b : Nat, b < 10 → Nat.digitChar a = Nat.digitChar b → a = b := by
  decide

lemma toDigitsCore_eq_digits (f : Nat) :
    ∀ (n : Nat) (acc : List Char), 0 < n → n < f →
      Nat.toDigitsCore 10 f n acc
        = ((Nat.digits 10 n).map Nat.digitChar).reverse ++ acc := by
  induction f with
  | zero => intro n acc hn hf; omega
  | succ f ih =>
    intro n acc hn hf
    rw [Nat.toDigitsCore]
    by_cases hdiv : n / 10 = 0
    · have hlt : n < 10 := by omega
      simp only [hdiv, if_pos]
      rw [Nat.digits_def' (by norm_num : 1 < 10) hn, hdiv]
      simp [Nat.mod_eq_of_lt hlt]
    · simp only [hdiv, if_neg]
      have h1 : 0 < n / 10 := Nat.pos_of_ne_zero hdiv
      have h2 : n / 10 < f := by
        have := Nat.div_lt_self hn (by norm_num : 1 < 10)
        omega
      rw [ih (n / 10) (Nat.digitChar (n % 10) :: acc) h1 h2]
      rw [Nat.digits_def' (by norm_num : 1 < 10) hn]
      simp

lemma toDigits_eq_digits (n : Nat) (hn : 0 < n) :
    Nat.toDigits 10 n = ((Nat.digits 10 n).map Nat.digitChar).reverse := by
  rw [Nat.toDigits, toDigitsCore_eq_digits (n + 1) n [] hn (Nat.lt_succ_self n),
    List.append_nil]

lemma map_digitChar_inj :
    ∀ l1 l2 : List Nat, (∀ a ∈ l1, a < 10) → (∀ a ∈ l2, a < 10) →
      l1.map Nat.digitChar = l2.map Nat.digitChar → l1 = l2 := by
  intro l1
  induction l1 with
  | nil => intro l2 _ _ h; cases l2 <;> simp_all
  | cons a l ih =>
    intro l2 h1 h2 h
    cases l2 with
    | nil => simp_all
    | cons b l2t =>
      simp only [List.map_cons, List.cons.injEq] at h
      have ha : a = b :=
        digitChar_injOn a (h1 a (by simp)) b (h2 b (by simp)) h.1
      have hl : l = l2t :=
        ih l2t (fun x hx => h1 x (by simp [hx])) (fun x hx => h2 x (by simp [hx])) h.2
      rw [ha, hl]

lemma repr_injective : Function.Injective Nat.repr := by
  intro m n h
  unfold Nat.repr at h
  have hdata : Nat.toDigits 10 m = Nat.toDigits 10 n := by
    have := congrArg String.data h
    simpa [List.asString] using this
  rcases Nat.eq_zero_or_pos m with hm | hm
  · rcases Nat.eq_zero_or_pos n with hn | hn
    · omega
    · exfalso
      subst hm
      rw [toDigits_eq_digits n hn] at hdata
      have h0 : Nat.toDigits 10 0 = ['0'] := by decide
      rw [h0] at hdata
      have : (Nat.digits 10 n).map Nat.digitChar = ['0'] := by
        have := congrArg List.reverse hdata
        simpa using this.symm
      have hd : Nat.digits 10 n = [0] := by
        have hb : ∀ a ∈ Nat.digits 10 n, a < 10 :=
          fun a ha => Nat.digits_lt_base (by norm_num) ha
        have := map_digitChar_inj (Nat.digits 10 n) [0] hb (by decide)
          (by simpa using this)
        simpa using this
      have := Nat.ofDigits_digits 10 n
      rw [hd] at this
      simp [Nat.ofDigits] at this
      omega
  · rcases Nat.eq_zero_or_pos n with hn | hn
    · exfalso
      subst hn
      rw [toDigits_eq_digits m hm] at hdata
      have h0 : Nat.toDigits 10 0 = ['0'] := by decide
      rw [h0] at hdata
      have : (Nat.digits 10 m).map Nat.digitChar = ['0'] := by
        have := congrArg List.reverse hdata
        simpa using this
      have hd : Nat.digits 10 m = [0] := by
        have hb : ∀ a ∈ Nat.digits 10 m, a < 10 :=
          fun a ha => Nat.digits_lt_base (by norm_num) ha
        have := map_digitChar_inj (Nat.digits 10 m) [0] hb (by decide)
          (by simpa using this)
        simpa using this
      have := Nat.ofDigits_digits 10 m
      rw [hd] at this
      simp [Nat.ofDigits] at this
      omega
    · rw [toDigits_eq_digits m hm, toDigits_eq_digits n hn] at hdata
      have hmaps :
          (Nat.digits 10 m).map Nat.digitChar = (Nat.digits 10 n).map Nat.digitChar := by
        have := congrArg List.reverse hdata
        simpa using this
      have hdig : Nat.digits 10 m = Nat.digits 10 n :=
        map_digitChar_inj _ _ (fun a ha => Nat.digits_lt_base (by norm_num) ha)
          (fun a ha => Nat.digits_lt_base (by norm_num) ha) hmaps
      have h1 := Nat.ofDigits_digits 10 m
      have h2 := Nat.ofDigits_digits 10 n
      rw [hdig] at h1
      rw [h1] at h2
      exact h2.symm ▸ rfl

lemma toString_nat_injective : Function.Injective (fun n : Nat => toString n) :=
  repr_injective

/-! ## Basic lemmas about `transcribeAudio` -/

lemma transcribeAudio_playback (s : SessionState) (rid : String) (o : FetchOutcome) :
    (transcribeAudio s rid o).playingId = s.playingId ∧
    (transcribeAudio s rid o).audioRefs = s.audioRefs ∧
    (transcribeAudio s rid o).playingElems = s.playingElems := by
  rcases o with t | ⟨st, body⟩ | msg
  · rcases t with _ | t
    · simp [transcribeAudio]
    · by_cases ht : t = "" <;> simp [transcribeAudio, ht]
  · simp [transcribeAudio]
  · simp [transcribeAudio]

lemma transcribeAudio_error (s : SessionState) (rid : String) (o : FetchOutcome) :
    (transcribeAudio s rid o).transcriptionError = failureMessage o := by
  rcases o with t | ⟨st, body⟩ | msg
  · rcases t with _ | t
    · simp [transcribeAudio, failureMessage, textTruthy]
    · by_cases ht : t = "" <;> simp [transcribeAudio, failureMessage, textTruthy, ht]
  · simp [transcribeAudio, failureMessage]
  · simp [transcribeAudio, failureMessage]

lemma transcribeAudio_settled (s : SessionState) (rid : String) (o : FetchOutcome) :
    (transcribeAudio s rid o).isTranscribing = false := by
  rcases o with t | ⟨st, body⟩ | msg
  · rcases t with _ | t
    · simp [transcribeAudio]
    · by_cases ht : t = "" <;> simp [transcribeAudio, ht]
  · simp [transcribeAudio]
  · simp [transcribeAudio]

lemma transcribeAudio_recordings_of_fail (s : SessionState) (rid : String)
    (o : FetchOutcome) (h : outcomeFails o = true) :
    (transcribeAudio s rid o).recordings = s.recordings := by
  rcases o with t | ⟨st, body⟩ | msg
  · rcases t with _ | t
    · simp [transcribeAudio]
    · by_cases ht : t = ""
      · simp [transcribeAudio, ht]
      · simp [outcomeFails, failureMessage, textTruthy, ht] at h
  · simp [transcribeAudio]
  · simp [transcribeAudio]

lemma transcribeAudio_recordings_cases (s : SessionState) (rid : String)
    (o : FetchOutcome) :
    (transcribeAudio s rid o).recordings = s.recordings ∨
    ∃ t : String, t ≠ "" ∧ o = .ok (some t) ∧
      (transcribeAudio s rid o).recordings = s.recordings.map (fun r : Recording =>
        if r.id = rid then { r with transcription := some t } else r) := by
  rcases o with t | ⟨st, body⟩ | msg
  · rcases t with _ | t
    · left; simp [transcribeAudio]
    · by_cases ht : t = ""
      · left; simp [transcribeAudio, ht]
      · right; exact ⟨t, ht, rfl, by simp [transcribeAudio, ht]⟩
  · left; simp [transcribeAudio]
  · left; simp [transcribeAudio]

/-- Every recording after a settled call comes from a recording before it,
with `id`, `url`, `blob` and `timestamp` untouched. -/
lemma transcribeAudio_mem_recordings (s : SessionState) (rid : String)
    (o : FetchOutcome) (r' : Recording)
    (h : r' ∈ (transcribeAudio s rid o).recordings) :
    ∃ r ∈ s.recordings, r'.id = r.id ∧ r'.url = r.url ∧ r'.blob = r.blob ∧
      r'.timestamp = r.timestamp := by
  rcases transcribeAudio_recordings_cases s rid o with hc | ⟨t, ht, ho, hc⟩
  · rw [hc] at h
    exact ⟨r', h, rfl, rfl, rfl, rfl⟩
  · rw [hc] at h
    rcases List.mem_map.mp h with ⟨r, hr, hfr⟩
    refine ⟨r, hr, ?_⟩
    by_cases hid : r.id = rid <;> simp [hid] at hfr <;> rw [← hfr] <;> simp [hid]

lemma transcribeAudio_timestamps (s : SessionState) (rid : String) (o : FetchOutcome) :
    (transcribeAudio s rid o).recordings.map (fun r : Recording => r.timestamp)
      = s.recordings.map (fun r : Recording => r.timestamp) := by
  rcases transcribeAudio_recordings_cases s rid o with hc | ⟨t, ht, ho, hc⟩
  · rw [hc]
  · rw [hc, List.map_map]
    refine List.map_congr_left (fun r hr => ?_)
    by_cases hid : r.id = rid <;> simp [hid]

/-! ## Frame lemmas for the other handlers -/

lemma togglePlayback_frame (s : SessionState) (rid : String) :
    (togglePlayback s rid).recordings = s.recordings ∧
    (togglePlayback s rid).transcriptionError = s.transcriptionError ∧
    (togglePlayback s rid).audioRefs = s.audioRefs := by
  unfold togglePlayback
  by_cases h1 : rid ∈ s.audioRefs
  · by_cases h2 : s.playingId = some rid
    · simp [h1, h2]
    · rcases hp : s.playingId with _ | j
      · simp [h1, h2, hp]
      · by_cases h3 : j ∈ s.audioRefs <;> by_cases hjr : j = rid <;>
          simp [h1, h2, hp, h3, hjr]
  · simp [h1]

lemma startRecordingStep_frame (s : SessionState) (granted : Bool) :
    (startRecordingStep s granted).recordings = s.recordings ∧
    (startRecordingStep s granted).playingElems = s.playingElems ∧
    (startRecordingStep s granted).playingId = s.playingId ∧
    (startRecordingStep s granted).audioRefs = s.audioRefs ∧
    (startRecordingStep s granted).transcriptionError = none := by
  by_cases h : granted <;> simp [startRecordingStep, h]

/-! ## Preservation of the reachable-state invariant -/

lemma togglePlayback_playInv (s : SessionState) (rid : String) (h : PlayInv s) :
    PlayInv (togglePlayback s rid) := by
  unfold togglePlayback
  by_cases h1 : rid ∈ s.audioRefs
  · by_cases h2 : s.playingId = some rid
    · rcases h with he | ⟨i, hi, hpi, hir⟩
      · left; simp [h1, h2, he]
      · left
        have hii : i = rid := by rw [hpi] at h2; exact Option.some.inj h2
        simp [h1, h2, hi, hii]
    · rcases hp : s.playingId with _ | j
      · have he : s.playingElems = [] := by
          rcases h with he | ⟨i, hi, hpi, hir⟩
          · exact he
          · rw [hp] at hpi; cases hpi
        right
        exact ⟨rid, by simp [h1, h2, hp, he], by simp [h1, h2, hp], by simp [h1, h2, hp, h1]⟩
      · have hjr : j ≠ rid := by
          intro hh; rw [hh] at hp; exact h2 hp
        rcases h with he | ⟨i, hi, hpi, hir⟩
        · right
          refine ⟨rid, ?_, ?_, ?_⟩ <;>
            by_cases h3 : j ∈ s.audioRefs <;> simp [h1, h2, hp, h3, he, hjr]
        · have hij : i = j := by rw [hp] at hpi; exact (Option.some.inj hpi).symm
          subst hij
          right
          refine ⟨rid, ?_, ?_, ?_⟩ <;> simp [h1, h2, hp, hir, hi, hjr]
  · rcases h with he | ⟨i, hi, hpi, hir⟩
    · left; simp [h1, he]
    · right; exact ⟨i, by simp [h1, hi], by simp [h1, hpi], by simp [h1, hir]⟩

lemma outcomeFails_false_iff (o : FetchOutcome) :
    outcomeFails o = false ↔ failureMessage o = none := by
  unfold outcomeFails
  rcases hf : failureMessage o with _ | m <;> simp

lemma getLast?_append_singleton {α : Type} (l : List α) (a : α) :
    (l ++ [a]).getLast? = some a := by
  rw [List.getLast?_append_cons]
  rfl

lemma step_finish_sess (g : TraceState) (now : Nat) (chunks : List (List Nat))
    (opusSupported : Bool) (outcome : FetchOutcome) :
    (step g (.finish now chunks opusSupported outcome)).sess
      = transcribeAudio
          { g.sess with
            isRecording := false
            isProcessing := false
            recordings := g.sess.recordings ++
              [mkRecording now { data := chunks.flatten, type := recorderMimeType opusSupported }] }
          (mkRecording now { data := chunks.flatten, type := recorderMimeType opusSupported }).id
          outcome := rfl

lemma step_finish_lastFailed (g : TraceState) (now : Nat) (chunks : List (List Nat))
    (opusSupported : Bool) (outcome : FetchOutcome) :
    (step g (.finish now chunks opusSupported outcome)).lastFailed
      = if outcomeFails outcome then
          some (mkRecording now { data := chunks.flatten, type := recorderMimeType opusSupported }).id
        else g.lastFailed := rfl

lemma step_retry_none (g : TraceState) (outcome : FetchOutcome)
    (hl : g.sess.recordings.getLast? = none) : step g (.retry outcome) = g := by
  unfold step
  rw [hl]

lemma step_retry_some (g : TraceState) (outcome : FetchOutcome) (r : Recording)
    (hl : g.sess.recordings.getLast? = some r) :
    step g (.retry outcome)
      = { sess := transcribeAudio g.sess r.id outcome
          lastFailed := if outcomeFails outcome then some r.id else g.lastFailed } := by
  unfold step
  rw [hl]

lemma inv_step (g : TraceState) (e : Event) (hg : Inv g) : Inv (step g e) := by
  obtain ⟨hplay, hrec, herr⟩ := hg
  cases e with
  | start granted =>
      obtain ⟨f1, f2, f3, f4, f5⟩ := startRecordingStep_frame g.sess granted
      refine ⟨?_, ?_, ?_⟩
      · unfold PlayInv
        rw [show (step g (.start granted)).sess = startRecordingStep g.sess granted from rfl,
          f2, f3, f4]
        exact hplay
      · rw [show (step g (.start granted)).sess = startRecordingStep g.sess granted from rfl, f1]
        exact hrec
      · rw [show (step g (.start granted)).sess = startRecordingStep g.sess granted from rfl, f5]
        intro hcon; exact absurd rfl hcon
  | finish now chunks opusSupported outcome =>
      have hsess : (step g (.finish now chunks opusSupported outcome)).sess
          = transcribeAudio
              { g.sess with
                isRecording := false
                isProcessing := false
                recordings := g.sess.recordings ++
                  [mkRecording now { data := chunks.flatten, type := recorderMimeType opusSupported }] }
              (mkRecording now { data := chunks.flatten, type := recorderMimeType opusSupported }).id
              outcome := rfl
      obtain ⟨p1, p2, p3⟩ := transcribeAudio_playback
        { g.sess with
          isRecording := false
          isProcessing := false
          recordings := g.sess.recordings ++
            [mkRecording now { data := chunks.flatten, type := recorderMimeType opusSupported }] }
        (mkRecording now { data := chunks.flatten, type := recorderMimeType opusSupported }).id
        outcome
      refine ⟨?_, ?_, ?_⟩
      · unfold PlayInv
        rw [hsess, p1, p2, p3]
        exact hplay
      · rw [hsess]
        intro r' hr'
        rcases transcribeAudio_mem_recordings _ _ _ _ hr' with ⟨r, hrmem, hid, hurl, hblob, hts⟩
        simp only [List.mem_append, List.mem_singleton] at hrmem
        rcases hrmem with hrmem | hrmem
        · rcases hrec r hrmem with ⟨ha, hb⟩
          exact ⟨by rw [hid, hts, ha], by rw [hblob]; exact hb⟩
        · subst hrmem
          constructor
          · rw [hid, hts]; rfl
          · rw [hblob]
            show recorderMimeType opusSupported ≠ ""
            by_cases hb : opusSupported <;> simp [recorderMimeType, hb]
      · rw [hsess]
        rw [transcribeAudio_error]
        by_cases hf : outcomeFails outcome = true
        · intro _
          refine ⟨mkRecording now { data := chunks.flatten, type := recorderMimeType opusSupported },
            ?_, ?_⟩
          · rw [transcribeAudio_recordings_of_fail _ _ _ hf]
            exact getLast?_append_singleton _ _
          · rw [step_finish_lastFailed, if_pos hf]
        · intro hcon
          rw [Bool.not_eq_true] at hf
          exact absurd ((outcomeFails_false_iff outcome).mp hf) hcon
  | retry outcome =>
      rcases hl : g.sess.recordings.getLast? with _ | r
      · rw [step_retry_none g outcome hl]
        exact ⟨hplay, hrec, herr⟩
      · rw [step_retry_some g outcome r hl]
        obtain ⟨p1, p2, p3⟩ := transcribeAudio_playback g.sess r.id outcome
        refine ⟨?_, ?_, ?_⟩
        · show PlayInv (transcribeAudio g.sess r.id outcome)
          unfold PlayInv
          rw [p1, p2, p3]
          exact hplay
        · intro r' hr'
          rcases transcribeAudio_mem_recordings _ _ _ _ hr' with ⟨rr, hrmem, hid, hurl, hblob, hts⟩
          rcases hrec rr hrmem with ⟨ha, hb⟩
          exact ⟨by rw [hid, hts, ha], by rw [hblob]; exact hb⟩
        · show (transcribeAudio g.sess r.id outcome).transcriptionError ≠ none → _
          rw [transcribeAudio_error]
          by_cases hf : outcomeFails outcome = true
          · intro _
            refine ⟨r, ?_, ?_⟩
            · show (transcribeAudio g.sess r.id outcome).recordings.getLast? = some r
              rw [transcribeAudio_recordings_of_fail _ _ _ hf]
              exact hl
            · show (if outcomeFails outcome then some r.id else g.lastFailed) = some r.id
              rw [if_pos hf]
          · intro hcon
            rw [Bool.not_eq_true] at hf
            exact absurd ((outcomeFails_false_iff outcome).mp hf) hcon
  | toggle rid =>
      obtain ⟨f1, f2, f3⟩ := togglePlayback_frame g.sess rid
      refine ⟨togglePlayback_playInv g.sess rid hplay, ?_, ?_⟩
      · rw [show (step g (.toggle rid)).sess = togglePlayback g.sess rid from rfl, f1]
        exact hrec
      · rw [show (step g (.toggle rid)).sess = togglePlayback g.sess rid from rfl, f1, f2]
        exact herr
  | ended rid =>
      by_cases hmem : rid ∈ g.sess.playingElems
      · rw [show step g (.ended rid)
            = (if rid ∈ g.sess.playingElems then { g with sess := audioEnded g.sess rid } else g)
            from rfl, if_pos hmem]
        refine ⟨?_, hrec, herr⟩
        left
        rcases hplay with he | ⟨i, hi, hpi, hir⟩
        · rw [he] at hmem; cases hmem
        · have : rid = i := by rw [hi] at hmem; simpa using hmem
          subst this
          show (g.sess.playingElems.erase rid) = []
          rw [hi]
          simp
      · rw [show step g (.ended rid)
            = (if rid ∈ g.sess.playingElems then { g with sess := audioEnded g.sess rid } else g)
            from rfl, if_neg hmem]
        exact ⟨hplay, hrec, herr⟩
  | register rid =>
      refine ⟨?_, hrec, herr⟩
      rcases hplay with he | ⟨i, hi, hpi, hir⟩
      · left; exact he
      · right
        refine ⟨i, hi, hpi, ?_⟩
        show i ∈ (if rid ∈ g.sess.audioRefs then g.sess.audioRefs else rid :: g.sess.audioRefs)
        by_cases hra : rid ∈ g.sess.audioRefs
        · rw [if_pos hra]; exact hir
        · rw [if_neg hra]; exact List.mem_cons_of_mem _ hir

lemma inv_foldl : ∀ (es : List Event) (g : TraceState), Inv g → Inv (es.foldl step g) := by
  intro es
  induction es with
  | nil => intro g hg; exact hg
  | cons e es ih => intro g hg; exact ih _ (inv_step g e hg)

lemma inv_init : Inv { sess := initialState, lastFailed := none } := by
  refine ⟨Or.inl rfl, ?_, ?_⟩ <;> simp [initialState]

lemma inv_run (es : List Event) : Inv (run es) :=
  inv_foldl es _ inv_init

/-! ## Recording timestamps along a trace -/

lemma foldl_timestamps : ∀ (es : List Event) (g : TraceState),
    (es.foldl step g).sess.recordings.map (fun r : Recording => r.timestamp)
      = g.sess.recordings.map (fun r : Recording => r.timestamp) ++ finishTimes es := by
  intro es
  induction es with
  | nil => intro g; simp [finishTimes]
  | cons e es ih =>
    intro g
    rw [List.foldl_cons, ih]
    cases e with
    | start granted =>
        rw [show (step g (.start granted)).sess = startRecordingStep g.sess granted from rfl,
          (startRecordingStep_frame g.sess granted).1]
        rfl
    | finish now chunks opusSupported outcome =>
        rw [step_finish_sess, transcribeAudio_timestamps]
        show (g.sess.recordings ++
            [mkRecording now { data := chunks.flatten, type := recorderMimeType opusSupported }]).map
            (fun r : Recording => r.timestamp) ++ finishTimes es = _
        rw [List.map_append]
        show _ = g.sess.recordings.map (fun r : Recording => r.timestamp) ++
          (now :: finishTimes es)
        rw [List.append_assoc]
        rfl
    | retry outcome =>
        rcases hl : g.sess.recordings.getLast? with _ | r
        · rw [step_retry_none g outcome hl]
          rfl
        · rw [step_retry_some g outcome r hl]
          show (transcribeAudio g.sess r.id outcome).recordings.map
              (fun r : Recording => r.timestamp) ++ finishTimes es = _
          rw [transcribeAudio_timestamps]
          rfl
    | toggle rid =>
        rw [show (step g (.toggle rid)).sess = togglePlayback g.sess rid from rfl,
          (togglePlayback_frame g.sess rid).1]
        rfl
    | ended rid =>
        by_cases hmem : rid ∈ g.sess.playingElems
        · rw [show step g (.ended rid)
              = (if rid ∈ g.sess.playingElems then { g with sess := audioEnded g.sess rid } else g)
              from rfl, if_pos hmem]
          rfl
        · rw [show step g (.ended rid)
              = (if rid ∈ g.sess.playingElems then { g with sess := audioEnded g.sess rid } else g)
              from rfl, if_neg hmem]
          rfl
    | register rid => rfl

lemma run_timestamps (es : List Event) :
    (run es).sess.recordings.map (fun r : Recording => r.timestamp) = finishTimes es := by
  rw [run, foldl_timestamps]
  rfl

/-! ## Claim theorems -/

/-- C1 (counterexample): the gateway answers a one-byte upload whose model
output is the empty string with HTTP 200, `success: true` and `text: ""`,
yet the client session does not accept it: `if (result.text)` is false for
the empty string, so the session's last error is set to
`No transcription text received` rather than staying unset. -/
theorem c1_empty_text_cex :
    (POST { audio := some smallFile } (fun _ => ModelOutcome.ok "")).status = 200 ∧
    (POST { audio := some smallFile } (fun _ => ModelOutcome.ok "")).success = true ∧
    (POST { audio := some smallFile } (fun _ => ModelOutcome.ok "")).text = some "" ∧
    (transcribeAudio initialState "1" (.ok (some ""))).transcriptionError
      = some "No transcription text received" := by
  refine ⟨?_, ?_, ?_, ?_⟩ <;> decide

/-- C1 (amended): for every transcription call that succeeds at the service
boundary, the gateway returns the text with HTTP 200 and `success: true`
even when it is empty; the session leaves its last error unset only for a
non-empty returned text, and treats an empty returned text as a failure
with last error `No transcription text received`. -/
theorem c1_empty_text_amended (f : UploadedFile) (model : List Nat → ModelOutcome)
    (t : String) (hsize : ¬ fileSize f > 25 * 1024 * 1024)
    (hmodel : model f.data = ModelOutcome.ok t) :
    (POST { audio := some f } model).status = 200 ∧
    (POST { audio := some f } model).success = true ∧
    (POST { audio := some f } model).text = some t ∧
    ∀ (s : SessionState) (rid : String),
      (transcribeAudio s rid (.ok (some t))).transcriptionError
        = if t = "" then some "No transcription text received" else none := by
  refine ⟨?_, ?_, ?_, ?_⟩
  · unfold POST; simp [hsize, hmodel]
  · unfold POST; simp [hsize, hmodel]
  · unfold POST; simp [hsize, hmodel]
  · intro s rid
    rw [transcribeAudio_error]
    by_cases ht : t = "" <;> simp [failureMessage, textTruthy, ht]

theorem c1_empty_text_amended_witness :
    (¬ fileSize smallFile > 25 * 1024 * 1024) ∧
    ((fun _ : List Nat => ModelOutcome.ok "") smallFile.data = ModelOutcome.ok "") ∧
    ((POST { audio := some smallFile } (fun _ => ModelOutcome.ok "")).status = 200 ∧
     (POST { audio := some smallFile } (fun _ => ModelOutcome.ok "")).success = true ∧
     (POST { audio := some smallFile } (fun _ => ModelOutcome.ok "")).text = some "" ∧
     ∀ (s : SessionState) (rid : String),
       (transcribeAudio s rid (.ok (some ""))).transcriptionError
         = if ("" : String) = "" then some "No transcription text received" else none) :=
  ⟨by decide, rfl,
    c1_empty_text_amended smallFile (fun _ => ModelOutcome.ok "") "" (by decide) rfl⟩

/-- C2: in the event model, whenever a transcription has failed (the error
banner is up), the retry handler re-invokes transcription for the most
recently failed recording — which is the recording at the tail of the
list — passing that recording's stored blob and its stored mime type. -/
theorem c2_retry_targets_last_failed (es : List Event)
    (herr : (run es).sess.transcriptionError ≠ none) :
    ∃ r : Recording,
      (run es).sess.recordings.getLast? = some r ∧
      (run es).lastFailed = some r.id ∧
      retryHandler (run es).sess
        = some { blob := r.blob, mimeType := r.blob.type, recordingId := r.id } := by
  obtain ⟨-, hrec, hinv⟩ := inv_run es
  rcases hinv herr with ⟨r, hl, hlf⟩
  refine ⟨r, hl, hlf, ?_⟩
  have hmem : r ∈ (run es).sess.recordings := by
    rcases List.mem_getLast?_eq_getLast (by rw [Option.mem_def, hl]) with ⟨hne, hx⟩
    rw [hx]
    exact List.getLast_mem hne
  have hretry : retryHandler (run es).sess = some (retryTranscription r) := by
    unfold retryHandler
    rw [hl]
  rw [hretry]
  unfold retryTranscription
  rw [if_neg (hrec r hmem).2]

theorem c2_retry_targets_last_failed_witness :
    (run [Event.finish 5 [[1], [2]] true (.thrown "boom")]).sess.transcriptionError ≠ none ∧
    ∃ r : Recording,
      (run [Event.finish 5 [[1], [2]] true (.thrown "boom")]).sess.recordings.getLast? = some r ∧
      (run [Event.finish 5 [[1], [2]] true (.thrown "boom")]).lastFailed = some r.id ∧
      retryHandler (run [Event.finish 5 [[1], [2]] true (.thrown "boom")]).sess
        = some { blob := r.blob, mimeType := r.blob.type, recordingId := r.id } :=
  ⟨by decide, c2_retry_targets_last_failed [Event.finish 5 [[1], [2]] true (.thrown "boom")]
    (by decide)⟩

/-- C3: an uploaded audio payload larger than 25 MiB is rejected with
status 400 and the `File size exceeds 25MB limit` error, and the external
model is not invoked for it. -/
theorem c3_payload_too_large_rejected (req : TranscribeRequest)
    (model : List Nat → ModelOutcome) (f : UploadedFile)
    (hf : req.audio = some f) (hsize : fileSize f > 25 * 1024 * 1024) :
    (POST req model).status = 400 ∧
    (POST req model).error = some "File size exceeds 25MB limit" ∧
    (POST req model).success = false ∧
    (POST req model).modelInvoked = false := by
  unfold POST
  rw [hf]
  simp [hsize]

lemma bigFile_size : fileSize bigFile = 25 * 1024 * 1024 + 1 := by
  unfold bigFile fileSize
  exact List.length_replicate _ _

theorem c3_payload_too_large_rejected_witness :
    fileSize bigFile > 25 * 1024 * 1024 ∧
    ((POST { audio := some bigFile } (fun _ => ModelOutcome.ok "hi")).status = 400 ∧
     (POST { audio := some bigFile } (fun _ => ModelOutcome.ok "hi")).error
       = some "File size exceeds 25MB limit" ∧
     (POST { audio := some bigFile } (fun _ => ModelOutcome.ok "hi")).success = false ∧
     (POST { audio := some bigFile } (fun _ => ModelOutcome.ok "hi")).modelInvoked = false) :=
  ⟨by rw [gt_iff_lt, bigFile_size]; exact Nat.lt_succ_self _,
    c3_payload_too_large_rejected _ _ bigFile rfl
      (by rw [gt_iff_lt, bigFile_size]; exact Nat.lt_succ_self _)⟩

/-- C4: every failing `transcribeAudio` call stores the failure message as
the session's last error, leaves the recordings list (hence the targeted
recording's unset transcription) unchanged, and clears the transcribing
flag; the flag is cleared on every settled call, success or failure. -/
theorem c4_failure_sets_error (s : SessionState) (rid : String)
    (o : FetchOutcome) (hfail : outcomeFails o = true) :
    (∃ m, failureMessage o = some m ∧
      (transcribeAudio s rid o).transcriptionError = some m) ∧
    (transcribeAudio s rid o).recordings = s.recordings ∧
    (transcribeAudio s rid o).isTranscribing = false ∧
    ∀ (s2 : SessionState) (rid2 : String) (o2 : FetchOutcome),
      (transcribeAudio s2 rid2 o2).isTranscribing = false := by
  refine ⟨?_, transcribeAudio_recordings_of_fail s rid o hfail,
    transcribeAudio_settled s rid o,
    fun s2 rid2 o2 => transcribeAudio_settled s2 rid2 o2⟩
  rcases hm : failureMessage o with _ | m
  · unfold outcomeFails at hfail
    rw [hm] at hfail
    cases hfail
  · exact ⟨m, rfl, by rw [transcribeAudio_error, hm]⟩

theorem c4_failure_sets_error_witness :
    outcomeFails (.httpError 500 "rate limit exceeded") = true ∧
    ((∃ m, failureMessage (.httpError 500 "rate limit exceeded") = some m ∧
        (transcribeAudio frameS "1" (.httpError 500 "rate limit exceeded")).transcriptionError
          = some m) ∧
     (transcribeAudio frameS "1" (.httpError 500 "rate limit exceeded")).recordings
       = frameS.recordings ∧
     (transcribeAudio frameS "1" (.httpError 500 "rate limit exceeded")).isTranscribing = false ∧
     ∀ (s2 : SessionState) (rid2 : String) (o2 : FetchOutcome),
       (transcribeAudio s2 rid2 o2).isTranscribing = false) :=
  ⟨by decide, c4_failure_sets_error frameS "1" (.httpError 500 "rate limit exceeded") (by decide)⟩

/-- C5: on a successful transcription returning text `t`, the draft buffer
becomes `t` when it was empty, and the previous content, a single space,
then `t` when it was non-empty. -/
theorem c5_success_appends_draft (s : SessionState) (rid t : String)
    (ht : t ≠ "") :
    (transcribeAudio s rid (.ok (some t))).draft
      = if s.draft = "" then t else s.draft ++ " " ++ t := by
  simp [transcribeAudio, ht]

theorem c5_success_appends_draft_witness :
    ("hello world" : String) ≠ "" ∧
    (transcribeAudio initialState "1" (.ok (some "hello world"))).draft
      = (if initialState.draft = "" then "hello world"
         else initialState.draft ++ " " ++ "hello world") ∧
    ("foo" : String) ≠ "" ∧
    (transcribeAudio { initialState with draft := "hello world" } "1" (.ok (some "foo"))).draft
      = (if (SessionState.draft { initialState with draft := "hello world" }) = "" then "foo"
         else (SessionState.draft { initialState with draft := "hello world" }) ++ " " ++ "foo") :=
  ⟨by decide, c5_success_appends_draft initialState "1" "hello world" (by decide),
   by decide,
   c5_success_appends_draft { initialState with draft := "hello world" } "1" "foo" (by decide)⟩

/-- C6: an upload request without an `audio` field is answered with the
client error status 400 and the `No audio file provided` message, and the
external model is not invoked. -/
theorem c6_missing_audio_rejected (req : TranscribeRequest)
    (model : List Nat → ModelOutcome) (h : req.audio = none) :
    (POST req model).status = 400 ∧
    (POST req model).error = some "No audio file provided" ∧
    (POST req model).success = false ∧
    (POST req model).modelInvoked = false := by
  unfold POST
  rw [h]
  exact ⟨rfl, rfl, rfl, rfl⟩

theorem c6_missing_audio_rejected_witness :
    (TranscribeRequest.mk none).audio = none ∧
    ((POST { audio := none } (fun _ => ModelOutcome.ok "hi")).status = 400 ∧
     (POST { audio := none } (fun _ => ModelOutcome.ok "hi")).error
       = some "No audio file provided" ∧
     (POST { audio := none } (fun _ => ModelOutcome.ok "hi")).success = false ∧
     (POST { audio := none } (fun _ => ModelOutcome.ok "hi")).modelInvoked = false) :=
  ⟨rfl, c6_missing_audio_rejected { audio := none } (fun _ => ModelOutcome.ok "hi") rfl⟩

/-- C7: along every event trace, at most one recording is playing at any
instant; in any reached state, starting playback on one recording stops any
other currently playing one, pausing the current recording clears the
currently-playing marker, and natural end of audio clears it as well. -/
theorem c7_playback_exclusive (es : List Event) :
    (∀ i ∈ (run es).sess.playingElems, ∀ j ∈ (run es).sess.playingElems, i = j) ∧
    (∀ rid, (run es).sess.playingId = some rid → rid ∈ (run es).sess.audioRefs →
      (togglePlayback (run es).sess rid).playingId = none) ∧
    (∀ rid other, rid ∈ (run es).sess.audioRefs → (run es).sess.playingId ≠ some rid →
      other ∈ (run es).sess.playingElems → other ≠ rid →
      other ∉ (togglePlayback (run es).sess rid).playingElems ∧
      rid ∈ (togglePlayback (run es).sess rid).playingElems ∧
      (togglePlayback (run es).sess rid).playingId = some rid) ∧
    (∀ rid, (audioEnded (run es).sess rid).playingId = none) := by
  obtain ⟨hplay, -, -⟩ := inv_run es
  refine ⟨?_, ?_, ?_, fun rid => rfl⟩
  · intro i hi j hj
    rcases hplay with he | ⟨k, hk, -, -⟩
    · rw [he] at hi; cases hi
    · rw [hk] at hi hj
      simp at hi hj
      rw [hi, hj]
  · intro rid hpid href
    simp [togglePlayback, href, hpid]
  · intro rid other h1 h2 hother hne
    rcases hplay with he | ⟨k, hk, hpk, hkr⟩
    · rw [he] at hother; cases hother
    · have hok : other = k := by rw [hk] at hother; simpa using hother
      subst hok
      refine ⟨?_, ?_, ?_⟩ <;> simp [togglePlayback, h1, h2, hpk, hkr, hk, hne]

theorem c7_playback_exclusive_witness :
    ((run demoEvents).sess.playingId = some "a" ∧
     "a" ∈ (run demoEvents).sess.audioRefs ∧
     "b" ∈ (run demoEvents).sess.audioRefs ∧
     (run demoEvents).sess.playingId ≠ some "b" ∧
     "a" ∈ (run demoEvents).sess.playingElems ∧
     ("a" : String) ≠ "b") ∧
    (togglePlayback (run demoEvents).sess "a").playingId = none ∧
    ("a" ∉ (togglePlayback (run demoEvents).sess "b").playingElems ∧
     "b" ∈ (togglePlayback (run demoEvents).sess "b").playingElems ∧
     (togglePlayback (run demoEvents).sess "b").playingId = some "b") :=
  ⟨⟨by decide, by decide, by decide, by decide, by decide, by decide⟩,
   (c7_playback_exclusive demoEvents).2.1 "a" (by decide) (by decide),
   (c7_playback_exclusive demoEvents).2.2.1 "b" "a" (by decide) (by decide) (by decide)
     (by decide)⟩

/-- C8: along every event trace whose finalization clock readings strictly
increase, any two distinct recordings in the session list have distinct
identifiers, and every identifier is the decimal rendering of its
recording's creation time. -/
theorem c8_recording_ids_unique (es : List Event)
    (hmono : (finishTimes es).Pairwise (· < ·)) :
    (∀ r ∈ (run es).sess.recordings, r.id = toString r.timestamp) ∧
    (∀ r1 ∈ (run es).sess.recordings, ∀ r2 ∈ (run es).sess.recordings,
      r1 ≠ r2 → r1.id ≠ r2.id) := by
  obtain ⟨-, hrec, -⟩ := inv_run es
  refine ⟨fun r hr => (hrec r hr).1, ?_⟩
  have hts : (run es).sess.recordings.map (fun r : Recording => r.timestamp)
      = finishTimes es := run_timestamps es
  have hnodupts :
      ((run es).sess.recordings.map (fun r : Recording => r.timestamp)).Nodup := by
    rw [hts]
    exact hmono.imp (fun hab => Nat.ne_of_lt hab)
  have hids : (run es).sess.recordings.map (fun r : Recording => r.id)
      = ((run es).sess.recordings.map (fun r : Recording => r.timestamp)).map
          (fun n : Nat => toString n) := by
    rw [List.map_map]
    exact List.map_congr_left (fun r hr => (hrec r hr).1)
  have hnodup : ((run es).sess.recordings.map (fun r : Recording => r.id)).Nodup := by
    rw [hids]
    exact hnodupts.map toString_nat_injective
  intro r1 h1 r2 h2 hne heq
  exact hne (List.inj_on_of_nodup_map hnodup h1 h2 heq)

theorem c8_recording_ids_unique_witness :
    (finishTimes demoTrace).Pairwise (· < ·) ∧
    ((∀ r ∈ (run demoTrace).sess.recordings, r.id = toString r.timestamp) ∧
     (∀ r1 ∈ (run demoTrace).sess.recordings, ∀ r2 ∈ (run demoTrace).sess.recordings,
       r1 ≠ r2 → r1.id ≠ r2.id)) :=
  ⟨by decide, c8_recording_ids_unique demoTrace (by decide)⟩

/-- C9: a successful transcription of recording id `rid` with text `t`
keeps the recordings list's length and order; every entry keeps its `id`,
`url`, `blob` and `timestamp`; entries whose id differs from `rid` are
unchanged, and entries whose id equals `rid` get transcription `t`. -/
theorem c9_success_frame (s : SessionState) (rid t : String) (ht : t ≠ "") :
    (transcribeAudio s rid (.ok (some t))).recordings.length = s.recordings.length ∧
    ∀ i (hi : i < s.recordings.length)
      (hi2 : i < (transcribeAudio s rid (.ok (some t))).recordings.length),
      ((transcribeAudio s rid (.ok (some t))).recordings.get ⟨i, hi2⟩).id
          = (s.recordings.get ⟨i, hi⟩).id ∧
      ((transcribeAudio s rid (.ok (some t))).recordings.get ⟨i, hi2⟩).url
          = (s.recordings.get ⟨i, hi⟩).url ∧
      ((transcribeAudio s rid (.ok (some t))).recordings.get ⟨i, hi2⟩).blob
          = (s.recordings.get ⟨i, hi⟩).blob ∧
      ((transcribeAudio s rid (.ok (some t))).recordings.get ⟨i, hi2⟩).timestamp
          = (s.recordings.get ⟨i, hi⟩).timestamp ∧
      ((s.recordings.get ⟨i, hi⟩).id ≠ rid →
        (transcribeAudio s rid (.ok (some t))).recordings.get ⟨i, hi2⟩
          = s.recordings.get ⟨i, hi⟩) ∧
      ((s.recordings.get ⟨i, hi⟩).id = rid →
        ((transcribeAudio s rid (.ok (some t))).recordings.get ⟨i, hi2⟩).transcription
          = some t) := by
  have hrecs : (transcribeAudio s rid (.ok (some t))).recordings
      = s.recordings.map (fun r : Recording =>
          if r.id = rid then { r with transcription := some t } else r) := by
    simp [transcribeAudio, ht]
  constructor
  · rw [hrecs, List.length_map]
  · intro i hi hi2
    have h1 : (transcribeAudio s rid (.ok (some t))).recordings[i]?
        = some ((transcribeAudio s rid (.ok (some t))).recordings.get ⟨i, hi2⟩) := by
      rw [List.getElem?_eq_getElem hi2, List.get_eq_getElem]
    have h2 : s.recordings[i]? = some (s.recordings.get ⟨i, hi⟩) := by
      rw [List.getElem?_eq_getElem hi, List.get_eq_getElem]
    have h3 : (transcribeAudio s rid (.ok (some t))).recordings[i]?
        = (s.recordings[i]?).map (fun r : Recording =>
            if r.id = rid then { r with transcription := some t } else r) := by
      rw [hrecs, List.getElem?_map]
    have hget : (transcribeAudio s rid (.ok (some t))).recordings.get ⟨i, hi2⟩
        = (fun r : Recording =>
            if r.id = rid then { r with transcription := some t } else r)
            (s.recordings.get ⟨i, hi⟩) := by
      apply Option.some.inj
      rw [← h1, h3, h2]
      rfl
    rw [hget]
    by_cases hid : (s.recordings[i]).id = rid <;>
      simp [List.get_eq_getElem, hid]

theorem c9_success_frame_witness :
    ("hi" : String) ≠ "" ∧
    (transcribeAudio frameS "2" (.ok (some "hi"))).recordings.length
      = frameS.recordings.length ∧
    ((transcribeAudio frameS "2" (.ok (some "hi"))).recordings.get
        ⟨0, by decide⟩).blob = (frameS.recordings.get ⟨0, by decide⟩).blob ∧
    ((frameS.recordings.get ⟨0, by decide⟩).id ≠ "2" →
      (transcribeAudio frameS "2" (.ok (some "hi"))).recordings.get ⟨0, by decide⟩
        = frameS.recordings.get ⟨0, by decide⟩) ∧
    ((frameS.recordings.get ⟨1, by decide⟩).id = "2" →
      ((transcribeAudio frameS "2" (.ok (some "hi"))).recordings.get
          ⟨1, by decide⟩).transcription = some "hi") :=
  ⟨by decide,
   (c9_success_frame frameS "2" "hi" (by decide)).1,
   ((c9_success_frame frameS "2" "hi" (by decide)).2 0 (by decide) (by decide)).2.2.1,
   ((c9_success_frame frameS "2" "hi" (by decide)).2 0 (by decide) (by decide)).2.2.2.2.1,
   ((c9_success_frame frameS "2" "hi" (by decide)).2 1 (by decide) (by decide)).2.2.2.2.2⟩

/-- C10: toggling playback for an identifier without a registered audio
element is a no-op: the whole session state is unchanged. -/
theorem c10_toggle_missing_ref_noop (s : SessionState) (rid : String)
    (h : rid ∉ s.audioRefs) : togglePlayback s rid = s := by
  simp [togglePlayback, h]

theorem c10_toggle_missing_ref_noop_witness :
    ("ghost" : String) ∉ frameS.audioRefs ∧
    togglePlayback frameS "ghost" = frameS :=
  ⟨by decide, c10_toggle_missing_ref_noop frameS "ghost" (by decide)⟩

end VoiceToText
